import Mathlib

/-!
Verification of the LLM code-helper component (claude.py + code_helper.py):
the Context Builder, the Response Parser, and the Completion Orchestrator.

Python strings are modelled as Lean strings; the Python string methods used
by the source (str.split, str.splitlines, str.strip, the `in` operator) are
given executable char-level implementations below.  The filesystem touched by
the Response Parser is modelled as an explicit record of directories and
files, and Python exceptions as an error type returned through Except.
-/

/-- Helper for the char-level splitters: prepend a character to the first
chunk of a split result (or start a fresh chunk). -/
def consHead (c : Char) : List (List Char) → List (List Char)
  | [] => [[c]]
  | l :: ls => (c :: l) :: ls

/-- Python str.split(sep) for a one-character separator sep, at char level:
chunks between occurrences of sep, keeping empty chunks, as Python does. -/
def splitCharC (sep : Char) : List Char → List (List Char)
  | [] => [[]]
  | c :: rest =>
    if c = sep then [] :: splitCharC sep rest else consHead c (splitCharC sep rest)

/-- Python str.split(sep) specialised to the two-character separator
that the source uses, at char level: left-to-right non-overlapping matches. -/
def splitColonSpaceC : List Char → List (List Char)
  | [] => [[]]
  | [c] => [[c]]
  | c1 :: c2 :: rest =>
    if c1 = ':' ∧ c2 = ' ' then [] :: splitColonSpaceC rest
    else consHead c1 (splitColonSpaceC (c2 :: rest))

/-- Python substring test (the `in` operator) at char level. -/
def containsSubC (sub : List Char) : List Char → Bool
  | [] => sub.isEmpty
  | c :: rest => sub.isPrefixOf (c :: rest) || containsSubC sub rest

/-- The line-break characters recognised by Python str.splitlines
(LF, CR, VT, FF, FS, GS, RS, NEL, LS, PS; CRLF is handled as one break). -/
def pyLinebreak (c : Char) : Bool :=
  c == '\n' || c == '\r' || c == '\x0b' || c == '\x0c' ||
  c == '\x1c' || c == '\x1d' || c == '\x1e' || c == '\u0085' ||
  c == '\u2028' || c == '\u2029'

/-- Python str.splitlines at char level: split at every line break, treat
CRLF as a single break, and drop a trailing final break. -/
def pySplitlinesC : List Char → List (List Char)
  | [] => []
  | [c] => if pyLinebreak c then [[]] else [[c]]
  | c1 :: c2 :: rest =>
    if c1 = '\r' ∧ c2 = '\n' then [] :: pySplitlinesC rest
    else if pyLinebreak c1 then [] :: pySplitlinesC (c2 :: rest)
    else consHead c1 (pySplitlinesC (c2 :: rest))

/-- The ASCII whitespace stripped by Python str.strip(). -/
def pyWhitespaceChar (c : Char) : Bool :=
  c == ' ' || c == '\t' || c == '\n' || c == '\r' || c == '\x0b' || c == '\x0c'

/-- Python str.strip() at char level. -/
def pyStripC (l : List Char) : List Char :=
  ((l.dropWhile pyWhitespaceChar).reverse.dropWhile pyWhitespaceChar).reverse

/-- Python s.split(chr(10)), the line split used on completion responses. -/
def pySplitNl (s : String) : List String := (splitCharC '\n' s.data).map String.mk

/-- Python line.split(colon-space), used to extract the path of a begin marker. -/
def pySplitColonSpace (s : String) : List String :=
  (splitColonSpaceC s.data).map String.mk

/-- Python sub in s. -/
def pyContains (sub s : String) : Bool := containsSubC sub.data s.data

/-- Python s.splitlines(). -/
def pySplitlines (s : String) : List String := (pySplitlinesC s.data).map String.mk

/-- Python s.strip(). -/
def pyStrip (s : String) : String := String.mk (pyStripC s.data)

/-- Python s.startswith(pre); used to state marker-line counting. -/
def pyStartsWith (pre s : String) : Bool := pre.data.isPrefixOf s.data

/-- Join a list of lines, terminating every line with a newline; this is the
accumulation pattern the source uses when it re-emits file content. -/
def joinNl (ls : List String) : String := String.join (ls.map (· ++ "\n"))

/-- str(pathlib.Path(p).parent) for the relative, slash-separated paths the
component works with (no leading dot segment, no trailing or duplicated
slashes, not absolute): everything before the last slash, or a dot when
there is no slash. -/
def pyParent (p : String) : String :=
  let parts := splitCharC '/' p.data
  if parts.length ≤ 1 then "." else String.intercalate "/" (parts.dropLast.map String.mk)

/- ## code_helper.py: the Context Builder -/

/-- The fixed header line that build_code_context starts from. -/
def contextHeader : String := "\nThe existing code files are below:\n"

/-- The fragment build_code_context appends for one file: a begin-marker line
carrying the path, the file content line by line (each line re-terminated
with a newline), and an end-marker line followed by a blank line. -/
def fileSegment (path content : String) : String :=
  "--BEGIN-FILE: " ++ path ++ "\n" ++ joinNl (pySplitlines content) ++
    "--END-FILE--" ++ "\n\n"

/-- build_code_context from code_helper.py.  A workspace is the list of
(file path, file content) pairs that os.walk reaches, in walk order; the
path is the joined path the source passes to the begin marker. -/
def build_code_context (ws : List (String × String)) : String :=
  contextHeader ++ String.join (ws.map fun f => fileSegment f.1 f.2)

/- ## The filesystem model and Python errors -/

/-- The Python exceptions the modelled code can raise. -/
inductive PyError
  /-- list index out of range, from line.split(colon-space)[1] -/
  | indexError
  /-- open or os.mkdir failing because a path component is missing -/
  | fileNotFoundError (path : String)
  /-- os.mkdir on an existing path -/
  | fileExistsError (path : String)
  /-- open(path, w) where path is a directory -/
  | isADirectoryError (path : String)
  /-- a Python call with missing required positional arguments -/
  | typeError
deriving DecidableEq, Repr

/-- The filesystem state the Response Parser acts on: the directories that
exist (besides the current directory, "."), and the files with their
contents. -/
structure FS where
  dirs : List String
  files : List (String × String)
deriving DecidableEq, Repr

/-- os.path.isdir: "." always exists. -/
def FS.dirExists (fs : FS) (d : String) : Bool := d == "." || fs.dirs.contains d

/-- os.path.exists: true for directories and files alike. -/
def FS.pathExists (fs : FS) (p : String) : Bool :=
  fs.dirExists p || (fs.files.map Prod.fst).contains p

/-- Content of the file at a path, if present. -/
def FS.getFile (fs : FS) (p : String) : Option String :=
  (fs.files.find? fun f => f.1 == p).map Prod.snd

/-- Create or overwrite an entry of the file table. -/
def setFile : List (String × String) → String → String → List (String × String)
  | [], p, c => [(p, c)]
  | (q, d) :: rest, p, c =>
    if q == p then (p, c) :: rest else (q, d) :: setFile rest p c

/-- os.mkdir: creates exactly one directory level; fails when the parent is
missing or the path already exists. -/
def FS.osMkdir (fs : FS) (d : String) : Except PyError FS :=
  if fs.pathExists d then .error (.fileExistsError d)
  else if fs.dirExists (pyParent d) then .ok { fs with dirs := d :: fs.dirs }
  else .error (.fileNotFoundError d)

/-- open(p, w) followed by write(c): fails on an empty path, on a path that
names a directory, or when the parent directory does not exist. -/
def FS.openWrite (fs : FS) (p c : String) : Except PyError FS :=
  if p = "" then .error (.fileNotFoundError p)
  else if fs.dirExists p then .error (.isADirectoryError p)
  else if fs.dirExists (pyParent p) then .ok { fs with files := setFile fs.files p c }
  else .error (.fileNotFoundError p)

/-- The end-marker action of write_llm_completion_to_files: create the parent
directory when os.path.exists denies it (one os.mkdir level only), then
open the file for writing and write the accumulated content. -/
def writeStep (fs : FS) (path content : String) : Except PyError FS :=
  match (if fs.pathExists (pyParent path) then Except.ok fs else fs.osMkdir (pyParent path)) with
  | .error e => .error e
  | .ok fs2 => fs2.openWrite path content

/-- The line loop of write_llm_completion_to_files, carrying the mutable
file_path and file_content variables and the filesystem.  A line holding the
begin marker resets the content and takes element 1 of the colon-space split
(raising IndexError when absent, per Python list indexing); a line holding
the end marker writes the accumulated content; any other line is appended to
the content with a newline.  Neither variable is reset after a write. -/
def goLines : List String → String → String → FS → Except PyError (String × String × FS)
  | [], path, content, fs => .ok (path, content, fs)
  | line :: rest, path, content, fs =>
    if pyContains "--BEGIN-FILE" line then
      match (pySplitColonSpace line).get? 1 with
      | none => .error .indexError
      | some p => goLines rest (pyStrip p) "" fs
    else if pyContains "--END-FILE--" line then
      match writeStep fs path content with
      | .error e => .error e
      | .ok fs2 => goLines rest path content fs2
    else
      goLines rest path (content ++ line ++ "\n") fs

/-- write_llm_completion_to_files from code_helper.py: split the completion
response on newlines and run the marker state machine over the lines. -/
def write_llm_completion_to_files (resp : String) (fs : FS) : Except PyError FS :=
  match goLines (pySplitNl resp) "" "" fs with
  | .error e => .error e
  | .ok (_, _, fs2) => .ok fs2

/- ## claude.py: the Completion Orchestrator -/

/-- Modelled from the spec: the human-turn marker constant of the external
anthropic SDK (anthropic.HUMAN_PROMPT), which is not part of this
repository; the completion-service interface is a black box and only the
marker strings cross the boundary. -/
def HUMAN_PROMPT : String := "\n\nHuman:"

/-- Modelled from the spec: the assistant-turn marker constant of the
external anthropic SDK (anthropic.AI_PROMPT). -/
def AI_PROMPT : String := "\n\nAssistant:"

/-- The standing instructions claude.py prepends to every request
(claude_prompt_instructions). -/
def claude_prompt_instructions : String :=
  "Generate code only if necessary. For any code generated, they need to be accompanied with thorough test cases that tests the correctness of the code.\nYou will be provided the contents of the existing code. \nThe contents of each file begin with \"--BEGIN-FILE:\" followed by the file path.\nThe contents of each file end with \"--END-FILE--\".\nUse the same delimiters for each new file as in the input you are given below.\nIn your response, each line of code must be on a newline.\nUnless explicitly requested, do not remove existing code that is unrelated to the change.\nRemember to try to reuse the existing code and follow the existing patterns and logic organizations, and separation of concerns that exist in the code when adding new changes.\n"

/-- The llm_defaults dictionary of claude.py. -/
structure LLMDefaults where
  model : String
  temperature : Int
  max_tokens_to_sample : Nat
deriving DecidableEq, Repr

/-- llm_defaults: model, temperature 0 (no variance), 10000 max tokens. -/
def llm_defaults : LLMDefaults :=
  { model := "claude-v1.3-100k", temperature := 0, max_tokens_to_sample := 10000 }

/-- Claude.__build_prompt: wrap the user instruction with the standing
instructions. -/
def build_prompt (user_prompt : String) : String :=
  "\nNow, respond to the following request: " ++ user_prompt ++ ".\n" ++
    claude_prompt_instructions ++ "\n"

/-- The keyword arguments claude.py passes to anthropic.Client.completion.
A temperature field is carried as an Option: none means the keyword was not
passed, so the service applies its own default. -/
structure CompletionRequest where
  prompt : String
  stop_sequences : List String
  model : String
  max_tokens_to_sample : Nat
  temperature : Option Int
deriving DecidableEq, Repr

/-- The request Claude.__talk_to_claude sends: history, the human-turn
marker, the instruction, the fresh code context, the assistant-turn marker;
stop on the human-turn marker; model and max_tokens_to_sample from
llm_defaults.  The call passes no temperature keyword. -/
def completionRequestFor (history prompt_wo_ctx : String)
    (workspace : List (String × String)) : CompletionRequest :=
  { prompt := history ++ HUMAN_PROMPT ++ " " ++ prompt_wo_ctx ++
      build_code_context workspace ++ AI_PROMPT
    stop_sequences := [HUMAN_PROMPT]
    model := llm_defaults.model
    max_tokens_to_sample := llm_defaults.max_tokens_to_sample
    temperature := none }

/-- The persistent state one orchestrator run touches: the history file at
the fixed context path (none when the file does not exist) and the
filesystem the Response Parser writes to. -/
structure SessionState where
  contextFile : Option String
  fs : FS
deriving DecidableEq, Repr

/-- Claude.__talk_to_claude followed by Claude.__process_llm_completion and
Claude.__save_context: build the code context, send the request to the
completion service (a black-box function from requests to completion text),
parse the completion into file writes, then overwrite the history file with
the prompt without code context, a blank line, and the completion.  A parser
exception aborts before the history file is written.  Token counting only
logs and is omitted.  Returns the new state and the completion. -/
def talkToClaude (service : CompletionRequest → String)
    (history prompt_wo_ctx : String) (workspace : List (String × String))
    (st : SessionState) : Except PyError (SessionState × String) :=
  let completion := service (completionRequestFor history prompt_wo_ctx workspace)
  let prompt_to_save := history ++ HUMAN_PROMPT ++ " " ++ prompt_wo_ctx ++ AI_PROMPT
  match write_llm_completion_to_files completion st.fs with
  | .error e => .error e
  | .ok fs2 =>
    .ok ({ contextFile := some (prompt_to_save ++ "\n\n" ++ completion), fs := fs2 },
      completion)

/-- The history-loading preamble of talk_to_claude_interactive and
talk_to_claude_with_query: an absent file yields an empty history, otherwise
the file content is re-read line by line, each line re-terminated with a
newline. -/
def loadHistory : Option String → String
  | none => ""
  | some s => (pySplitlines s).foldl (fun acc l => acc ++ l ++ "\n") ""

/-- One completion cycle of talk_to_claude_interactive (and, with an explicit
workspace, of talk_to_claude_with_query) for a user input that is neither
the exit keyword nor the PR keyword: load the history file, wrap the input
with build_prompt, and run a completion cycle.  The workspace argument is
the file listing of the directory the cycle serialises. -/
def interactiveCycle (service : CompletionRequest → String) (user_input : String)
    (workspace : List (String × String)) (st : SessionState) :
    Except PyError (SessionState × String) :=
  talkToClaude service (loadHistory st.contextFile) (build_prompt user_input) workspace st

/-- The content __save_context leaves in the history file after one cycle
with the given loaded history, user input and completion. -/
def savedTurn (history user completion : String) : String :=
  history ++ HUMAN_PROMPT ++ " " ++ build_prompt user ++ AI_PROMPT ++ "\n\n" ++ completion

/-- os.environ.get. -/
def envGet (env : List (String × String)) (k : String) : Option String :=
  (env.find? fun kv => kv.1 == k).map Prod.snd

/-- Python f-string rendering of an optional string: None prints as None. -/
def pyOptStr : Option String → String
  | none => "None"
  | some s => s

/-- A Python call of the bound method Claude.__talk_to_claude with a list of
positional arguments.  The method signature requires history and
prompt_without_code_context (workspace has a default value), so a call that
supplies fewer than two positional arguments raises TypeError before the
body runs; the model covers the call shapes occurring in claude.py. -/
def callTalkToClaude (service : CompletionRequest → String)
    (workspace : List (String × String)) (st : SessionState) :
    List String → Except PyError (SessionState × String)
  | [history, prompt_wo_ctx] => talkToClaude service history prompt_wo_ctx workspace st
  | _ => .error .typeError

/-- Claude.talk_to_claude_non_interactive: read the task description from
the environment variable, wrap it with build_prompt, and call
Claude.__talk_to_claude with that single positional argument. -/
def talk_to_claude_non_interactive (service : CompletionRequest → String)
    (env : List (String × String)) (workspace : List (String × String))
    (st : SessionState) : Except PyError (SessionState × String) :=
  let task_description := envGet env "__DEV_ENVIRONMENT_ALIAS"
  let final_prompt := build_prompt (pyOptStr task_description)
  callTalkToClaude service workspace st [final_prompt]

/- ## Parser and round-trip auxiliary definitions -/

/-- A line that triggers neither marker branch of the parser. -/
def lineQuiet (l : String) : Bool :=
  !pyContains "--BEGIN-FILE" l && !pyContains "--END-FILE--" l

/-- A line the parser can process without touching the filesystem: it must
not hold the end marker, and if it holds the begin marker the colon-space
split must have an element at index 1. -/
def lineInert (l : String) : Bool :=
  !pyContains "--END-FILE--" l &&
    (!pyContains "--BEGIN-FILE" l || ((pySplitColonSpace l).get? 1).isSome)

/-- A completion response whose lines are all inert: the parser consumes it
without writing and without raising. -/
def parserInert (s : String) : Bool := (pySplitNl s).all lineInert

/-- Trailing-newline normalization: the content the parser reconstructs for
a file whose stored content was serialised by the Context Builder. -/
def normContent (c : String) : String := joinNl (pySplitlines c)

/-- A path the end-marker action can write without creating directories:
nonempty, strip-invariant, free of newline and of the colon-space separator,
not itself a directory, and with its parent directory existing. -/
def pathOk (fs : FS) (p : String) : Bool :=
  !(p == "") && (pyStrip p == p) && !pyContains ": " p && !pyContains "\n" p &&
    !fs.dirExists p && fs.dirExists (pyParent p)

/-- A path the end-marker action can write, allowing at most one missing
parent level (created by os.mkdir). -/
def writablePath (fs : FS) (p : String) : Bool :=
  !(p == "") && (pyStrip p == p) && !pyContains ": " p &&
    !fs.dirExists p && !(p == pyParent p) &&
    (fs.dirExists (pyParent p) ||
      (!fs.pathExists (pyParent p) && fs.dirExists (pyParent (pyParent p))))

/-- The lines of the Code Context Blob contributed by a single file. -/
def segLines (f : String × String) : List String :=
  ("--BEGIN-FILE: " ++ f.1) :: (pySplitlines f.2 ++ ["--END-FILE--", ""])

/-- The newline split of a whole Code Context Blob: the header lines, the
per-file segments, and the terminal empty chunk. -/
def blobLines (ws : List (String × String)) : List String :=
  "" :: "The existing code files are below:" ::
    (ws.flatMap segLines ++ [""])

/-- A file content the markers of which cannot be confused with the blob
grammar: no line of it holds a marker substring, starts like a begin-marker
line, or equals the end-marker line. -/
def contentOk (c : String) : Bool :=
  (pySplitlines c).all fun l =>
    !pyContains "--BEGIN-FILE" l && !pyContains "--END-FILE--" l &&
      !pyStartsWith "--BEGIN-FILE: " l && !(l == "--END-FILE--")

/-- The filesystem after the Response Parser has replayed a whole workspace
serialisation: every file of the workspace is rewritten, in order, with its
trailing-newline-normalized content; directories are untouched. -/
def applyWrites (fs : FS) (ws : List (String × String)) : FS :=
  ws.foldl (fun acc f => ⟨acc.dirs, setFile acc.files f.1 (normContent f.2)⟩) fs

/- ## String and splitter lemmas -/

@[simp] theorem mk_data (s : String) : String.mk s.data = s := rfl

theorem strAppend_assoc (a b c : String) : a ++ b ++ c = a ++ (b ++ c) := by
  apply String.ext
  simp [String.data_append, List.append_assoc]

@[simp] theorem strAppend_empty (s : String) : s ++ "" = s := by
  apply String.ext
  simp [String.data_append]

@[simp] theorem strEmpty_append (s : String) : "" ++ s = s := rfl

theorem strJoin_eq (l : List String) (init : String) :
    l.foldl (· ++ ·) init = init ++ String.join l := by
  induction l generalizing init with
  | nil => simp [String.join]
  | cons a l ih =>
    show l.foldl (· ++ ·) (init ++ a) = init ++ String.join (a :: l)
    rw [ih]
    have h2 : String.join (a :: l) = a ++ String.join l := by
      show l.foldl (· ++ ·) ("" ++ a) = a ++ String.join l
      rw [ih, strEmpty_append]
    rw [h2, strAppend_assoc]

theorem strJoin_cons (a : String) (l : List String) :
    String.join (a :: l) = a ++ String.join l := by
  show l.foldl (· ++ ·) ("" ++ a) = a ++ String.join l
  rw [strJoin_eq, strEmpty_append]

theorem joinNl_cons (a : String) (l : List String) :
    joinNl (a :: l) = a ++ "\n" ++ joinNl l := by
  show String.join ((a ++ "\n") :: l.map (· ++ "\n")) = a ++ "\n" ++ joinNl l
  rw [strJoin_cons]
  rfl

theorem foldl_appendNl (ls : List String) (init : String) :
    ls.foldl (fun acc l => acc ++ l ++ "\n") init = init ++ joinNl ls := by
  induction ls generalizing init with
  | nil => simp [joinNl, String.join]
  | cons a ls ih =>
    show ls.foldl (fun acc l => acc ++ l ++ "\n") (init ++ a ++ "\n") = init ++ joinNl (a :: ls)
    rw [ih, joinNl_cons, strAppend_assoc, strAppend_assoc, strAppend_assoc]

@[simp] theorem consHead_cons (c : Char) (l : List Char) (ls : List (List Char)) :
    consHead c (l :: ls) = (c :: l) :: ls := rfl

theorem splitCharC_sepFree (sep : Char) (l : List Char) (h : ∀ c ∈ l, c ≠ sep) :
    splitCharC sep l = [l] := by
  induction l with
  | nil => rfl
  | cons c rest ih =>
    have hc : c ≠ sep := h c (List.mem_cons_self c rest)
    have hrest : ∀ x ∈ rest, x ≠ sep := fun x hx => h x (List.mem_cons_of_mem c hx)
    simp [splitCharC, hc, ih hrest]

theorem splitCharC_append_sep (sep : Char) (xs rest : List Char)
    (h : ∀ c ∈ xs, c ≠ sep) :
    splitCharC sep (xs ++ sep :: rest) = xs :: splitCharC sep rest := by
  induction xs with
  | nil => simp [splitCharC]
  | cons x xs ih =>
    have hx : x ≠ sep := h x (List.mem_cons_self x xs)
    have hxs : ∀ c ∈ xs, c ≠ sep := fun c hc => h c (List.mem_cons_of_mem x hc)
    simp [splitCharC, hx, ih hxs]

theorem isPrefixOf_append_self (a b : List Char) : a.isPrefixOf (a ++ b) = true := by
  induction a with
  | nil => simp [List.isPrefixOf]
  | cons c a ih => simp [List.isPrefixOf, ih]

theorem containsSubC_of_isPrefixOf (sub l : List Char) (h : sub.isPrefixOf l = true) :
    containsSubC sub l = true := by
  cases l with
  | nil =>
    cases sub with
    | nil => rfl
    | cons c cs => simp [List.isPrefixOf] at h
  | cons c rest => simp [containsSubC, h]

theorem containsSubC_singleton (c : Char) (l : List Char) :
    containsSubC [c] l = true ↔ c ∈ l := by
  induction l with
  | nil => simp [containsSubC]
  | cons d rest ih =>
    have : ([c].isPrefixOf (d :: rest)) = (c == d) := by
      simp [List.isPrefixOf]
    simp [containsSubC, this, ih, List.mem_cons]

theorem pyContains_nl_eq_false (s : String) (h : pyContains "\n" s = false) :
    ∀ c ∈ s.data, c ≠ '\n' := by
  intro c hc hEq
  have : containsSubC ['\n'] s.data = true := (containsSubC_singleton '\n' s.data).mpr (hEq ▸ hc)
  have h2 : containsSubC ['\n'] s.data = false := h
  rw [h2] at this
  exact Bool.false_ne_true this

theorem pyStartsWith_append (pre t : String) : pyStartsWith pre (pre ++ t) = true := by
  show pre.data.isPrefixOf (pre ++ t).data = true
  rw [String.data_append]
  exact isPrefixOf_append_self pre.data t.data

theorem pyContains_of_startsWith (sub s : String) (h : pyStartsWith sub s = true) :
    pyContains sub s = true :=
  containsSubC_of_isPrefixOf sub.data s.data h

theorem pySplitNl_cons (l rest : String) (h : pyContains "\n" l = false) :
    pySplitNl (l ++ "\n" ++ rest) = l :: pySplitNl rest := by
  show (splitCharC '\n' (l ++ "\n" ++ rest).data).map String.mk = l :: pySplitNl rest
  have hd : (l ++ "\n" ++ rest).data = l.data ++ '\n' :: rest.data := by
    rw [String.data_append, String.data_append, List.append_assoc]
    rfl
  rw [hd, splitCharC_append_sep '\n' l.data rest.data (pyContains_nl_eq_false l h)]
  simp [pySplitNl]

theorem pySplitNl_flat (units : List String) (tail : String)
    (h : ∀ u ∈ units, pyContains "\n" u = false) :
    pySplitNl (joinNl units ++ tail) = units ++ pySplitNl tail := by
  induction units with
  | nil =>
    show pySplitNl (String.join [] ++ tail) = [] ++ pySplitNl tail
    simp [String.join]
  | cons u us ih =>
    have hu : pyContains "\n" u = false := h u (List.mem_cons_self u us)
    have hus : ∀ x ∈ us, pyContains "\n" x = false :=
      fun x hx => h x (List.mem_cons_of_mem u hx)
    rw [joinNl_cons, strAppend_assoc, strAppend_assoc]
    rw [← strAppend_assoc u "\n" (joinNl us ++ tail)]
    rw [pySplitNl_cons u (joinNl us ++ tail) hu, ih hus]
    rfl

/- ## Response Parser lemmas -/


theorem goLines_quiet (ls rest : List String) (p c : String) (fs : FS)
    (h : ls.all lineQuiet = true) :
    goLines (ls ++ rest) p c fs = goLines rest p (c ++ joinNl ls) fs := by
  induction ls generalizing c with
  | nil =>
    simp [joinNl, String.join]
  | cons l ls ih =>
    rw [List.all_cons, Bool.and_eq_true] at h
    obtain ⟨hl, hls⟩ := h
    rw [lineQuiet, Bool.and_eq_true, Bool.not_eq_true', Bool.not_eq_true'] at hl
    show goLines (l :: (ls ++ rest)) p c fs = goLines rest p (c ++ joinNl (l :: ls)) fs
    rw [goLines, if_neg (by simp [hl.1]), if_neg (by simp [hl.2])]
    rw [ih _ hls]
    simp [joinNl_cons, strAppend_assoc]

theorem goLines_inert (ls : List String) (h : ls.all lineInert = true)
    (p c : String) (fs : FS) :
    ∃ p2 c2, goLines ls p c fs = .ok (p2, c2, fs) := by
  induction ls generalizing p c with
  | nil => exact ⟨p, c, rfl⟩
  | cons l ls ih =>
    rw [List.all_cons, Bool.and_eq_true] at h
    obtain ⟨hl, hls⟩ := h
    rw [lineInert, Bool.and_eq_true, Bool.not_eq_true'] at hl
    obtain ⟨hEnd, hBegin⟩ := hl
    by_cases hb : pyContains "--BEGIN-FILE" l = true
    · rw [Bool.or_eq_true, Bool.not_eq_true'] at hBegin
      rcases hBegin with hB | hSome
      · rw [hb] at hB
        exact absurd hB (by simp)
      · obtain ⟨q, hq⟩ := Option.isSome_iff_exists.mp hSome
        rw [goLines, if_pos hb, hq]
        exact ih hls (pyStrip q) ""
    · rw [goLines, if_neg hb, if_neg (by simp [hEnd])]
      exact ih hls p (c ++ l ++ "\n")

theorem write_inert (s : String) (fs : FS) (h : parserInert s = true) :
    write_llm_completion_to_files s fs = .ok fs := by
  obtain ⟨p2, c2, heq⟩ := goLines_inert (pySplitNl s) h "" "" fs
  rw [write_llm_completion_to_files, heq]

/- ## Filesystem lemmas -/

theorem find?_setFile_self (files : List (String × String)) (p c : String) :
    (setFile files p c).find? (fun f => f.1 == p) = some (p, c) := by
  induction files with
  | nil => simp [setFile, List.find?]
  | cons f rest ih =>
    obtain ⟨q, d⟩ := f
    by_cases hq : q = p
    · subst hq
      simp [setFile, List.find?]
    · have : (q == p) = false := by simp [hq]
      simp [setFile, this, List.find?, ih]

theorem find?_setFile_ne (files : List (String × String)) (p c q : String)
    (h : q ≠ p) :
    (setFile files p c).find? (fun f => f.1 == q) = files.find? (fun f => f.1 == q) := by
  have hpq : (p == q) = false := beq_eq_false_iff_ne.mpr (Ne.symm h)
  induction files with
  | nil => simp [setFile, List.find?, hpq]
  | cons f rest ih =>
    obtain ⟨r, d⟩ := f
    by_cases hr : (r == p) = true
    · have hrq : (r == q) = false := by rw [eq_of_beq hr]; exact hpq
      simp [setFile, hr, List.find?, hpq, hrq]
    · have hrf : (r == p) = false := by simpa using hr
      by_cases hq2 : (r == q) = true
      · simp [setFile, hrf, List.find?, hq2]
      · have hq2f : (r == q) = false := by simpa using hq2
        simp [setFile, hrf, List.find?, hq2f, ih]

theorem getFile_set_self (dirs : List String) (files : List (String × String))
    (p c : String) : (FS.mk dirs (setFile files p c)).getFile p = some c := by
  simp [FS.getFile, find?_setFile_self]

theorem getFile_set_ne (dirs : List String) (files : List (String × String))
    (p c q : String) (h : q ≠ p) :
    (FS.mk dirs (setFile files p c)).getFile q = (FS.mk dirs files).getFile q := by
  simp [FS.getFile, find?_setFile_ne files p c q h]

/- ## Marker-line lemmas -/

theorem beginLine_contains (p : String) :
    pyContains "--BEGIN-FILE" ("--BEGIN-FILE: " ++ p) = true := by
  apply containsSubC_of_isPrefixOf
  rw [String.data_append]
  have h : "--BEGIN-FILE: ".data = "--BEGIN-FILE".data ++ ": ".data := rfl
  rw [h, List.append_assoc]
  exact isPrefixOf_append_self _ _

theorem beginLine_startsWith (p : String) :
    pyStartsWith "--BEGIN-FILE: " ("--BEGIN-FILE: " ++ p) = true :=
  pyStartsWith_append "--BEGIN-FILE: " p

theorem splitColonSpaceC_free (t : List Char)
    (h : containsSubC [':', ' '] t = false) : splitColonSpaceC t = [t] := by
  induction t using splitColonSpaceC.induct with
  | case1 => rfl
  | case2 c => rfl
  | case3 c1 c2 rest hpair ih =>
    exfalso
    rw [containsSubC, Bool.or_eq_false_iff] at h
    obtain ⟨hpre, _⟩ := h
    rw [List.isPrefixOf, List.isPrefixOf, List.isPrefixOf] at hpre
    simp [hpair.1, hpair.2] at hpre
  | case4 c1 c2 rest hpair ih =>
    rw [containsSubC, Bool.or_eq_false_iff] at h
    obtain ⟨hpre, hrest⟩ := h
    rw [splitColonSpaceC, if_neg hpair, ih hrest, consHead_cons]

theorem beginLine_extract (p : String) (h : pyContains ": " p = false) :
    (pySplitColonSpace ("--BEGIN-FILE: " ++ p)).get? 1 = some p := by
  have hd : ("--BEGIN-FILE: " ++ p).data = "--BEGIN-FILE: ".data ++ p.data :=
    String.data_append _ _
  have hsplit : splitColonSpaceC ("--BEGIN-FILE: ".data ++ p.data) =
      "--BEGIN-FILE".data :: splitColonSpaceC p.data := rfl
  rw [pySplitColonSpace, hd, hsplit, splitColonSpaceC_free p.data h]
  simp

theorem beginLine_ne_endLine (p : String) :
    ("--BEGIN-FILE: " ++ p) ≠ "--END-FILE--" := by
  intro hEq
  have := congrArg String.data hEq
  rw [String.data_append] at this
  simp at this

/- ## splitlines produces break-free lines -/

theorem mem_consHead (l : List Char) (c : Char) (ls : List (List Char))
    (h : l ∈ consHead c ls) :
    (ls = [] ∧ l = [c]) ∨ ∃ h2 t, ls = h2 :: t ∧ (l = c :: h2 ∨ l ∈ t) := by
  cases ls with
  | nil =>
    left
    exact ⟨rfl, by simpa [consHead] using h⟩
  | cons h2 t =>
    right
    refine ⟨h2, t, rfl, ?_⟩
    simpa [consHead] using h

theorem pySplitlinesC_no_break (cs : List Char) :
    ∀ l ∈ pySplitlinesC cs, ∀ c ∈ l, pyLinebreak c = false := by
  induction cs using pySplitlinesC.induct with
  | case1 =>
    intro l hl
    simp [pySplitlinesC] at hl
  | case2 c hb =>
    intro l hl d hd
    rw [pySplitlinesC, if_pos hb] at hl
    simp at hl
    subst hl
    simp at hd
  | case3 c hb =>
    intro l hl d hd
    rw [pySplitlinesC, if_neg hb] at hl
    simp at hl
    subst hl
    simp at hd
    subst hd
    simpa using hb
  | case4 c1 c2 rest hpair ih =>
    intro l hl
    rw [pySplitlinesC, if_pos hpair] at hl
    rcases List.mem_cons.mp hl with hnil | hmem
    · subst hnil
      intro c hc
      simp at hc
    · exact ih l hmem
  | case5 c1 c2 rest hpair hbreak ih =>
    intro l hl
    rw [pySplitlinesC, if_neg hpair, if_pos hbreak] at hl
    rcases List.mem_cons.mp hl with hnil | hmem
    · subst hnil
      intro c hc
      simp at hc
    · exact ih l hmem
  | case6 c1 c2 rest hpair hbreak ih =>
    intro l hl
    rw [pySplitlinesC, if_neg hpair, if_neg hbreak] at hl
    rcases mem_consHead l c1 (pySplitlinesC (c2 :: rest)) hl with
      ⟨hnil, hl1⟩ | ⟨h2, t, hcons, hor⟩
    · subst hl1
      intro c hc
      simp at hc
      subst hc
      simpa using hbreak
    · rcases hor with hl2 | hl3
      · subst hl2
        intro c hc
        rcases List.mem_cons.mp hc with hc1 | hc2
        · subst hc1
          simpa using hbreak
        · exact ih h2 (hcons ▸ List.mem_cons_self h2 t) c hc2
      · exact ih l (hcons ▸ List.mem_cons_of_mem h2 hl3)

theorem pySplitlines_nl_free (s : String) :
    ∀ u ∈ pySplitlines s, pyContains "\n" u = false := by
  intro u hu
  rw [pySplitlines] at hu
  obtain ⟨l, hl, hmk⟩ := List.mem_map.mp hu
  subst hmk
  show containsSubC ['\n'] l = false
  by_cases hc : containsSubC ['\n'] l = true
  · have hmem : '\n' ∈ l := (containsSubC_singleton '\n' l).mp hc
    have := pySplitlinesC_no_break s.data l hl '\n' hmem
    simp [pyLinebreak] at this
  · simpa using hc

/- ## writeStep lemmas -/


theorem writeStep_noMkdir (fs : FS) (path c : String) (h : pathOk fs path = true) :
    writeStep fs path c = .ok ⟨fs.dirs, setFile fs.files path c⟩ := by
  simp only [pathOk, Bool.and_eq_true, Bool.not_eq_true'] at h
  obtain ⟨⟨⟨⟨⟨hne, hstrip⟩, hcs⟩, hnl⟩, hdir⟩, hparent⟩ := h
  have hpe : fs.pathExists (pyParent path) = true := by
    simp [FS.pathExists, hparent]
  have hne2 : ¬(path = "") := by
    intro hh
    rw [hh] at hne
    simp at hne
  rw [writeStep, hpe]
  simp only [if_true]
  rw [FS.openWrite, if_neg hne2, hdir]
  simp only [Bool.false_eq_true, if_false]
  rw [hparent]
  simp

theorem writeStep_writable (fs : FS) (path c : String)
    (h : writablePath fs path = true) :
    ∃ newdirs, writeStep fs path c = .ok ⟨newdirs, setFile fs.files path c⟩ ∧
      (newdirs = fs.dirs ∨ newdirs = pyParent path :: fs.dirs) := by
  simp only [writablePath, Bool.and_eq_true, Bool.not_eq_true'] at h
  obtain ⟨⟨⟨⟨⟨hne, hstrip⟩, hcs⟩, hdir⟩, hpp⟩, hpar⟩ := h
  have hne2 : ¬(path = "") := by
    intro hh
    rw [hh] at hne
    simp at hne
  rw [Bool.or_eq_true, Bool.and_eq_true, Bool.not_eq_true'] at hpar
  rcases hpar with hparent | ⟨hnotex, hgrand⟩
  · refine ⟨fs.dirs, ?_, Or.inl rfl⟩
    have hpe : fs.pathExists (pyParent path) = true := by
      simp [FS.pathExists, hparent]
    rw [writeStep, hpe]
    simp only [if_true]
    rw [FS.openWrite, if_neg hne2, hdir]
    simp only [Bool.false_eq_true, if_false]
    rw [hparent]
    simp
  · refine ⟨pyParent path :: fs.dirs, ?_, Or.inr rfl⟩
    rw [writeStep, hnotex]
    simp only [Bool.false_eq_true, if_false]
    rw [FS.osMkdir, hnotex]
    simp only [Bool.false_eq_true, if_false]
    rw [hgrand]
    simp only [if_true]
    have hdirNew : (FS.mk (pyParent path :: fs.dirs) fs.files).dirExists path = false := by
      rw [FS.dirExists] at hdir ⊢
      rw [Bool.or_eq_false_iff] at hdir
      simp only [List.contains_cons]
      rw [hdir.1, hdir.2, hpp]
      rfl
    have hdirPar : (FS.mk (pyParent path :: fs.dirs) fs.files).dirExists (pyParent path) = true := by
      rw [FS.dirExists]
      simp [List.contains_cons]
    rw [FS.openWrite, if_neg hne2, hdirNew]
    simp only [Bool.false_eq_true, if_false]
    rw [hdirPar]
    simp

/- ## Blob decomposition -/


theorem pyContains_nl_append (a b : String)
    (ha : pyContains "\n" a = false) (hb : pyContains "\n" b = false) :
    pyContains "\n" (a ++ b) = false := by
  by_cases h : pyContains "\n" (a ++ b) = true
  · exfalso
    have hmem : '\n' ∈ (a ++ b).data := (containsSubC_singleton '\n' _).mp h
    rw [String.data_append, List.mem_append] at hmem
    rcases hmem with hm | hm
    · exact absurd ((containsSubC_singleton '\n' _).mpr hm) (by rw [show containsSubC ['\n'] a.data = pyContains "\n" a from rfl, ha]; simp)
    · exact absurd ((containsSubC_singleton '\n' _).mpr hm) (by rw [show containsSubC ['\n'] b.data = pyContains "\n" b from rfl, hb]; simp)
  · simpa using h

theorem beginLine_nl_free (p : String) (h : pyContains "\n" p = false) :
    pyContains "\n" ("--BEGIN-FILE: " ++ p) = false :=
  pyContains_nl_append "--BEGIN-FILE: " p (by decide) h

theorem segs_split (ws : List (String × String))
    (hp : ws.all (fun f => !pyContains "\n" f.1) = true) :
    pySplitNl (String.join (ws.map fun f => fileSegment f.1 f.2)) =
      ws.flatMap segLines ++ [""] := by
  induction ws with
  | nil => rfl
  | cons f rest ih =>
    rw [List.all_cons, Bool.and_eq_true] at hp
    obtain ⟨hf, hrest⟩ := hp
    rw [Bool.not_eq_true'] at hf
    rw [List.map_cons, strJoin_cons]
    have hform : fileSegment f.1 f.2 ++ String.join (rest.map fun g => fileSegment g.1 g.2) =
        ("--BEGIN-FILE: " ++ f.1) ++ "\n" ++
          (joinNl (pySplitlines f.2) ++
            ("--END-FILE--" ++ "\n" ++
              ("" ++ "\n" ++ String.join (rest.map fun g => fileSegment g.1 g.2)))) := by
      apply String.ext
      simp [fileSegment, String.data_append, List.append_assoc]
    rw [hform]
    rw [pySplitNl_cons _ _ (beginLine_nl_free f.1 hf)]
    rw [pySplitNl_flat (pySplitlines f.2) _ (pySplitlines_nl_free f.2)]
    rw [pySplitNl_cons _ _ (by decide)]
    rw [pySplitNl_cons _ _ (by decide)]
    rw [ih hrest]
    simp [segLines, blobLines, List.flatMap_cons, List.append_assoc]

theorem blob_split (ws : List (String × String))
    (hp : ws.all (fun f => !pyContains "\n" f.1) = true) :
    pySplitNl (build_code_context ws) = blobLines ws := by
  have hform : build_code_context ws =
      "" ++ "\n" ++
        ("The existing code files are below:" ++ "\n" ++
          String.join (ws.map fun f => fileSegment f.1 f.2)) := by
    apply String.ext
    simp [build_code_context, contextHeader, String.data_append, List.append_assoc]
  rw [hform]
  rw [pySplitNl_cons _ _ (by decide)]
  rw [pySplitNl_cons _ _ (by decide)]
  rw [segs_split ws hp]
  rfl

/- ## Marker counting -/

theorem countP_segLines_begin (f : String × String) (hc : contentOk f.2 = true) :
    (segLines f).countP (fun l => pyStartsWith "--BEGIN-FILE: " l) = 1 := by
  rw [segLines, List.countP_cons, List.countP_append]
  have h1 : (pySplitlines f.2).countP (fun l => pyStartsWith "--BEGIN-FILE: " l) = 0 := by
    rw [List.countP_eq_zero]
    intro l hl
    rw [contentOk, List.all_eq_true] at hc
    have := hc l hl
    simp only [Bool.and_eq_true, Bool.not_eq_true'] at this
    simp [this.1.2]
  have h2 : ([("--END-FILE--" : String), ""]).countP (fun l => pyStartsWith "--BEGIN-FILE: " l) = 0 := by
    decide
  rw [h1, h2, beginLine_startsWith f.1]
  simp

theorem countP_segLines_end (f : String × String) (hc : contentOk f.2 = true) :
    (segLines f).countP (fun l => l == "--END-FILE--") = 1 := by
  rw [segLines, List.countP_cons, List.countP_append]
  have h1 : (pySplitlines f.2).countP (fun l => l == "--END-FILE--") = 0 := by
    rw [List.countP_eq_zero]
    intro l hl
    rw [contentOk, List.all_eq_true] at hc
    have := hc l hl
    simp only [Bool.and_eq_true, Bool.not_eq_true'] at this
    simp [this.2]
  have h2 : ([("--END-FILE--" : String), ""]).countP (fun l => l == "--END-FILE--") = 1 := by
    decide
  have h3 : (("--BEGIN-FILE: " ++ f.1) == "--END-FILE--") = false :=
    beq_eq_false_iff_ne.mpr (beginLine_ne_endLine f.1)
  rw [h1, h2, h3]
  simp

theorem countP_flat_begin (ws : List (String × String))
    (hc : ws.all (fun f => contentOk f.2) = true) :
    (ws.flatMap segLines).countP (fun l => pyStartsWith "--BEGIN-FILE: " l) = ws.length := by
  induction ws with
  | nil => rfl
  | cons f rest ih =>
    rw [List.all_cons, Bool.and_eq_true] at hc
    rw [List.flatMap_cons, List.countP_append, countP_segLines_begin f hc.1, ih hc.2,
      List.length_cons]
    omega

theorem countP_flat_end (ws : List (String × String))
    (hc : ws.all (fun f => contentOk f.2) = true) :
    (ws.flatMap segLines).countP (fun l => l == "--END-FILE--") = ws.length := by
  induction ws with
  | nil => rfl
  | cons f rest ih =>
    rw [List.all_cons, Bool.and_eq_true] at hc
    rw [List.flatMap_cons, List.countP_append, countP_segLines_end f hc.1, ih hc.2,
      List.length_cons]
    omega

/- ## Parser steps and the run over builder output -/

theorem goLines_begin_step (line : String) (rest : List String) (p c : String)
    (fs : FS) (path : String) (hb : pyContains "--BEGIN-FILE" line = true)
    (hx : (pySplitColonSpace line).get? 1 = some path) :
    goLines (line :: rest) p c fs = goLines rest (pyStrip path) "" fs := by
  rw [goLines, if_pos hb, hx]

theorem goLines_end_step (line : String) (rest : List String) (p c : String)
    (fs fs2 : FS) (hb : pyContains "--BEGIN-FILE" line = false)
    (he : pyContains "--END-FILE--" line = true)
    (hw : writeStep fs p c = .ok fs2) :
    goLines (line :: rest) p c fs = goLines rest p c fs2 := by
  rw [goLines, if_neg (by simp [hb]), if_pos he, hw]

theorem goLines_other_step (line : String) (rest : List String) (p c : String)
    (fs : FS) (hb : pyContains "--BEGIN-FILE" line = false)
    (he : pyContains "--END-FILE--" line = false) :
    goLines (line :: rest) p c fs = goLines rest p (c ++ line ++ "\n") fs := by
  rw [goLines, if_neg (by simp [hb]), if_neg (by simp [he])]


theorem applyWrites_dirs (fs : FS) (ws : List (String × String)) :
    (applyWrites fs ws).dirs = fs.dirs := by
  induction ws generalizing fs with
  | nil => rfl
  | cons f rest ih => exact ih _

theorem pathOk_congr (fs1 fs2 : FS) (h : fs1.dirs = fs2.dirs) (p : String) :
    pathOk fs1 p = pathOk fs2 p := by
  simp [pathOk, FS.dirExists, h]

theorem pathOk_parts (fs : FS) (p : String) (h : pathOk fs p = true) :
    (p == "") = false ∧ pyStrip p = p ∧ pyContains ": " p = false ∧
      pyContains "\n" p = false ∧ fs.dirExists p = false ∧
      fs.dirExists (pyParent p) = true := by
  simp only [pathOk, Bool.and_eq_true, Bool.not_eq_true'] at h
  obtain ⟨⟨⟨⟨⟨h1, h2⟩, h3⟩, h4⟩, h5⟩, h6⟩ := h
  exact ⟨h1, eq_of_beq h2, h3, h4, h5, h6⟩

theorem contentOk_quiet (c : String) (h : contentOk c = true) :
    (pySplitlines c).all lineQuiet = true := by
  rw [contentOk, List.all_eq_true] at h
  rw [List.all_eq_true]
  intro l hl
  have hlq := h l hl
  simp only [Bool.and_eq_true] at hlq
  simp [lineQuiet, hlq.1.1.1, hlq.1.1.2]

theorem goLines_blocks (ws : List (String × String)) (fs0 : FS) :
    ∀ (fs : FS) (p0 c0 : String), fs.dirs = fs0.dirs →
      ws.all (fun f => pathOk fs0 f.1) = true →
      ws.all (fun f => contentOk f.2) = true →
      ∃ p2 c2, goLines (ws.flatMap segLines ++ [""]) p0 c0 fs =
        .ok (p2, c2, applyWrites fs ws) := by
  induction ws with
  | nil =>
    intro fs p0 c0 _ _ _
    exact ⟨p0, c0 ++ "" ++ "\n", rfl⟩
  | cons f rest ih =>
    intro fs p0 c0 hdirs hp hc
    rw [List.all_cons, Bool.and_eq_true] at hp hc
    obtain ⟨hpf, hprest⟩ := hp
    obtain ⟨hcf, hcrest⟩ := hc
    have hpfFs : pathOk fs f.1 = true := by
      rw [pathOk_congr fs fs0 hdirs]
      exact hpf
    obtain ⟨hne, hstripEq, hcs, hnl, hdirF, hparF⟩ := pathOk_parts fs f.1 hpfFs
    have hlines : (f :: rest).flatMap segLines ++ [""] =
        ("--BEGIN-FILE: " ++ f.1) ::
          (pySplitlines f.2 ++
            ("--END-FILE--" :: "" :: (rest.flatMap segLines ++ [""]))) := by
      simp [List.flatMap_cons, segLines, List.append_assoc]
    rw [hlines]
    rw [goLines_begin_step _ _ _ _ _ f.1 (beginLine_contains f.1) (beginLine_extract f.1 hcs)]
    rw [hstripEq]
    rw [goLines_quiet (pySplitlines f.2) _ _ _ _ (contentOk_quiet f.2 hcf)]
    rw [strEmpty_append]
    have hnc : normContent f.2 = joinNl (pySplitlines f.2) := rfl
    rw [← hnc]
    rw [goLines_end_step "--END-FILE--" _ f.1 (normContent f.2) fs
      ⟨fs.dirs, setFile fs.files f.1 (normContent f.2)⟩
      (by decide) (by decide) (writeStep_noMkdir fs f.1 (normContent f.2) hpfFs)]
    rw [goLines_other_step _ _ _ _ _ (by decide) (by decide)]
    obtain ⟨p2, c2, hrec⟩ :=
      ih ⟨fs.dirs, setFile fs.files f.1 (normContent f.2)⟩ f.1
        (normContent f.2 ++ "" ++ "\n") hdirs hprest hcrest
    rw [hrec]
    exact ⟨p2, c2, rfl⟩

/- ## Claim theorems -/

/-- C10: for every workspace, the Code Context Blob starts with the fixed
header line before any begin marker (the header itself holds no marker), for
the empty workspace the blob is exactly the header, and the blob is never
the empty string. -/
theorem context_blob_header (ws : List (String × String)) :
    (∃ rest, build_code_context ws = contextHeader ++ rest) ∧
      build_code_context [] = contextHeader ∧
      build_code_context ws ≠ "" ∧
      pyContains "--BEGIN-FILE" contextHeader = false := by
  have hR : build_code_context ws =
      contextHeader ++ String.join (ws.map fun f => fileSegment f.1 f.2) := rfl
  refine ⟨⟨_, hR⟩, ?_, ?_, by decide⟩
  · show contextHeader ++ String.join [] = contextHeader
    simp [String.join]
  · intro h
    rw [hR] at h
    have hd := congrArg String.data h
    rw [String.data_append] at hd
    rcases List.append_eq_nil.mp hd with ⟨h1, _⟩
    exact absurd h1 (by decide)

/-- C2: talk_to_claude_non_interactive passes the built prompt as the only
positional argument of a method that requires two, so for every environment,
service and state it raises TypeError and never performs a completion
cycle (the spec intends one cycle with empty history; the code slips on the
call arity). -/
theorem non_interactive_raises_type_error (service : CompletionRequest → String)
    (env : List (String × String)) (workspace : List (String × String))
    (st : SessionState) :
    talk_to_claude_non_interactive service env workspace st = .error .typeError := rfl

/-- C7: the request sent to the completion service fixes the stop sequence
on the human-turn marker, the model, and the maximum output size from
llm_defaults, but carries no temperature keyword, although llm_defaults
declares temperature zero; sampling is therefore left at the service
default, against the declared deterministic-decoding intent. -/
theorem request_omits_temperature (history prompt_wo_ctx : String)
    (workspace : List (String × String)) :
    (completionRequestFor history prompt_wo_ctx workspace).stop_sequences = [HUMAN_PROMPT] ∧
      (completionRequestFor history prompt_wo_ctx workspace).model = llm_defaults.model ∧
      (completionRequestFor history prompt_wo_ctx workspace).max_tokens_to_sample =
        llm_defaults.max_tokens_to_sample ∧
      (completionRequestFor history prompt_wo_ctx workspace).temperature = none ∧
      llm_defaults.temperature = 0 :=
  ⟨rfl, rfl, rfl, rfl, rfl⟩

/-- C9: a completion response whose lines hold no end marker (and whose
begin-marker lines, if any, are well-formed) makes the parser write no file
at all: end of input in the accumulating state flushes nothing, so the
filesystem is returned unchanged. -/
theorem unterminated_block_writes_nothing (resp : String) (fs : FS)
    (h : parserInert resp = true) :
    write_llm_completion_to_files resp fs = .ok fs :=
  write_inert resp fs h

/-- Witness for C9: a response consisting of a begin marker followed by
content and no end marker writes nothing. -/
theorem unterminated_block_writes_nothing_witness :
    parserInert "--BEGIN-FILE: a.txt\nsome content" = true ∧
      write_llm_completion_to_files "--BEGIN-FILE: a.txt\nsome content"
        ⟨[], [("b.txt", "z")]⟩ = .ok ⟨[], [("b.txt", "z")]⟩ :=
  ⟨by decide, unterminated_block_writes_nothing "--BEGIN-FILE: a.txt\nsome content"
    ⟨[], [("b.txt", "z")]⟩ (by decide)⟩

/-- C4 counterexample: the Response Parser does raise on malformed input: a
line holding the begin marker without the colon-space separator raises
IndexError, so the parser is not total on malformed blocks. -/
theorem parser_raises_counterexample :
    write_llm_completion_to_files "--BEGIN-FILE" ⟨[], []⟩ = .error .indexError := rfl

/-- C4 amended: the parser is lenient only towards unterminated or nested
blocks; a begin-marker line without the colon-space separator raises
IndexError, and an end marker with no preceding begin marker tries to open
the empty path and raises FileNotFoundError; a nested begin marker silently
drops the first block. -/
theorem parser_malformed_behavior (fs : FS) :
    write_llm_completion_to_files "--BEGIN-FILE" fs = .error .indexError ∧
      write_llm_completion_to_files "--END-FILE--" fs = .error (.fileNotFoundError "") ∧
      write_llm_completion_to_files "--BEGIN-FILE: a.txt\nunterminated tail" fs = .ok fs ∧
      write_llm_completion_to_files
        "--BEGIN-FILE: a.txt\ndropped\n--BEGIN-FILE: b.txt\nkept\n--END-FILE--" ⟨[], []⟩ =
        .ok ⟨[], [("b.txt", "kept\n")]⟩ :=
  ⟨rfl, rfl, rfl, rfl⟩

/-- C5 counterexample: when more than one level of a block path's parent is
missing, the parser does not create them: os.mkdir creates a single level,
so the write raises FileNotFoundError instead. -/
theorem multilevel_mkdir_counterexample :
    write_llm_completion_to_files "--BEGIN-FILE: x/y/z.txt\nhi\n--END-FILE--" ⟨[], []⟩ =
      .error (.fileNotFoundError "x/y") := rfl

/-- C5 amended: processing a well-formed block from any parser state writes
the block content (newline-terminated lines) to the block path, creating at
most one missing parent-directory level, and leaves every other file
untouched. -/
theorem block_write_one_level (path : String) (ls rest : List String)
    (p0 c0 : String) (fs : FS) (hpath : writablePath fs path = true)
    (hls : ls.all lineQuiet = true) :
    ∃ fs2, goLines (("--BEGIN-FILE: " ++ path) :: (ls ++ ("--END-FILE--" :: rest)))
        p0 c0 fs = goLines rest path (joinNl ls) fs2 ∧
      fs2.getFile path = some (joinNl ls) ∧
      ∀ q, q ≠ path → fs2.getFile q = fs.getFile q := by
  have hparts : (pyStrip path == path) = true ∧ pyContains ": " path = false := by
    simp only [writablePath, Bool.and_eq_true, Bool.not_eq_true'] at hpath
    exact ⟨hpath.1.1.1.1.2, hpath.1.1.1.2⟩
  obtain ⟨newdirs, hw, hnd⟩ := writeStep_writable fs path (joinNl ls) hpath
  refine ⟨⟨newdirs, setFile fs.files path (joinNl ls)⟩, ?_, ?_, ?_⟩
  · rw [goLines_begin_step _ _ _ _ _ path (beginLine_contains path)
      (beginLine_extract path hparts.2)]
    rw [eq_of_beq hparts.1]
    rw [goLines_quiet ls _ _ _ _ hls]
    rw [strEmpty_append]
    rw [goLines_end_step "--END-FILE--" rest path (joinNl ls) fs
      ⟨newdirs, setFile fs.files path (joinNl ls)⟩ (by decide) (by decide) hw]
  · exact getFile_set_self newdirs fs.files path (joinNl ls)
  · intro q hq
    exact getFile_set_ne newdirs fs.files path (joinNl ls) q hq

/-- Witness for C5 amended: a block whose path has exactly one missing
parent level is written, the directory is created, and an unrelated file is
untouched. -/
theorem block_write_one_level_witness :
    writablePath ⟨[], [("b.txt", "z")]⟩ "d/a.txt" = true ∧
      (∃ fs2, goLines (("--BEGIN-FILE: " ++ "d/a.txt") :: (["hello"] ++ ("--END-FILE--" :: [])))
          "" "" ⟨[], [("b.txt", "z")]⟩ = goLines [] "d/a.txt" (joinNl ["hello"]) fs2 ∧
        fs2.getFile "d/a.txt" = some (joinNl ["hello"]) ∧
        ∀ q, q ≠ "d/a.txt" → fs2.getFile q = FS.getFile ⟨[], [("b.txt", "z")]⟩ q) :=
  ⟨by decide, block_write_one_level "d/a.txt" ["hello"] [] "" "" ⟨[], [("b.txt", "z")]⟩
    (by decide) (by decide)⟩

/-- C6 counterexample: the Context Builder output for the one-file workspace
is not the bare marker block: it starts with the header line. -/
theorem end_to_end_counterexample :
    build_code_context [("a.txt", "hello")] ≠
      "--BEGIN-FILE: a.txt\nhello\n--END-FILE--\n\n" := by
  decide

/-- C6 amended: for the workspace with the single file a.txt holding hello,
the Context Builder output is the header followed by the marker block, and
parsing the completion response overwrites a.txt with the content
hello world followed by a newline. -/
theorem end_to_end_scenario :
    build_code_context [("a.txt", "hello")] =
      "\nThe existing code files are below:\n--BEGIN-FILE: a.txt\nhello\n--END-FILE--\n\n" ∧
      write_llm_completion_to_files "--BEGIN-FILE: a.txt\nhello world\n--END-FILE--\n"
        ⟨[], [("a.txt", "hello")]⟩ = .ok ⟨[], [("a.txt", "hello world\n")]⟩ :=
  ⟨rfl, rfl⟩

/- ## applyWrites lookups and the round trip -/

theorem getFile_applyWrites_notin (ws : List (String × String)) (fs : FS)
    (q : String) (h : q ∉ ws.map Prod.fst) :
    (applyWrites fs ws).getFile q = fs.getFile q := by
  induction ws generalizing fs with
  | nil => rfl
  | cons g rest ih =>
    rw [List.map_cons, List.mem_cons] at h
    push_neg at h
    have step : applyWrites fs (g :: rest) =
        applyWrites ⟨fs.dirs, setFile fs.files g.1 (normContent g.2)⟩ rest := rfl
    rw [step, ih _ h.2]
    exact getFile_set_ne fs.dirs fs.files g.1 (normContent g.2) q h.1

theorem getFile_applyWrites (ws : List (String × String)) (fs : FS)
    (hnd : (ws.map Prod.fst).Nodup) :
    ∀ f ∈ ws, (applyWrites fs ws).getFile f.1 = some (normContent f.2) := by
  induction ws generalizing fs with
  | nil => intro f hf; simp at hf
  | cons g rest ih =>
    rw [List.map_cons, List.nodup_cons] at hnd
    intro f hf
    have step : applyWrites fs (g :: rest) =
        applyWrites ⟨fs.dirs, setFile fs.files g.1 (normContent g.2)⟩ rest := rfl
    rcases List.mem_cons.mp hf with hfg | hfr
    · subst hfg
      rw [step, getFile_applyWrites_notin rest _ f.1 hnd.1]
      exact getFile_set_self fs.dirs fs.files f.1 (normContent f.2)
    · rw [step]
      exact ih _ hnd.2 f hfr

theorem pathOk_all_nl_free (ws : List (String × String)) (fs : FS)
    (hp : ws.all (fun f => pathOk fs f.1) = true) :
    ws.all (fun f => !pyContains "\n" f.1) = true := by
  rw [List.all_eq_true] at hp ⊢
  intro f hf
  obtain ⟨_, _, _, hnl, _, _⟩ := pathOk_parts fs f.1 (hp f hf)
  simp [hnl]

/-- C3 (amended): feeding the Context Builder output of a workspace back
through the Response Parser succeeds and rewrites exactly the workspace
files, each with its splitlines-normalized content (lines re-joined with a
newline, so a missing final newline is normalized to one present); the
written content is byte-identical to the original exactly when the original
equals its own normalization. -/
theorem roundtrip_normalizes (ws : List (String × String)) (fs : FS)
    (hp : ws.all (fun f => pathOk fs f.1) = true)
    (hc : ws.all (fun f => contentOk f.2) = true) :
    write_llm_completion_to_files (build_code_context ws) fs = .ok (applyWrites fs ws) ∧
      ((ws.map Prod.fst).Nodup →
        ∀ f ∈ ws, (applyWrites fs ws).getFile f.1 = some (normContent f.2)) ∧
      ((ws.map Prod.fst).Nodup →
        ∀ f ∈ ws, ((applyWrites fs ws).getFile f.1 = some f.2 ↔ normContent f.2 = f.2)) := by
  refine ⟨?_, fun hnd => getFile_applyWrites ws fs hnd, fun hnd f hf => ?_⟩
  · rw [write_llm_completion_to_files, blob_split ws (pathOk_all_nl_free ws fs hp)]
    rw [blobLines]
    rw [goLines_other_step _ _ _ _ _ (by decide) (by decide)]
    rw [goLines_other_step _ _ _ _ _ (by decide) (by decide)]
    obtain ⟨p2, c2, hrun⟩ :=
      goLines_blocks ws fs fs ""
        ("" ++ "" ++ "\n" ++ "The existing code files are below:" ++ "\n") rfl hp hc
    rw [hrun]
  · rw [getFile_applyWrites ws fs hnd f hf]
    simp

/-- C3 counterexample: round-tripping a file whose content lacks a final
newline is not byte-identical: hello comes back as hello with a trailing
newline. -/
theorem roundtrip_counterexample :
    write_llm_completion_to_files (build_code_context [("a.txt", "hello")])
        ⟨[], [("a.txt", "hello")]⟩ = .ok ⟨[], [("a.txt", "hello\n")]⟩ ∧
      ("hello\n" : String) ≠ "hello" :=
  ⟨rfl, by decide⟩

/-- Witness for C3 amended: a newline-terminated file round-trips and the
parser returns exactly the applyWrites state. -/
theorem roundtrip_normalizes_witness :
    pathOk ⟨[], [("a.txt", "hello\n")]⟩ "a.txt" = true ∧
      contentOk "hello\n" = true ∧
      write_llm_completion_to_files (build_code_context [("a.txt", "hello\n")])
        ⟨[], [("a.txt", "hello\n")]⟩ =
        .ok (applyWrites ⟨[], [("a.txt", "hello\n")]⟩ [("a.txt", "hello\n")]) :=
  ⟨by decide, by decide,
    (roundtrip_normalizes [("a.txt", "hello\n")] ⟨[], [("a.txt", "hello\n")]⟩
      (by decide) (by decide)).1⟩

/-- C8 (amended): for a workspace of N files (newline-free paths, contents
whose lines cannot be confused with marker lines), the blob splits into the
header lines, one segment per file wrapping exactly the splitlines of that
file's content between one begin-marker line and one end-marker line, and
the marker-line counts are both exactly N. -/
theorem context_blob_marker_pairs (ws : List (String × String))
    (hp : ws.all (fun f => !pyContains "\n" f.1) = true)
    (hc : ws.all (fun f => contentOk f.2) = true) :
    pySplitNl (build_code_context ws) = blobLines ws ∧
      (pySplitNl (build_code_context ws)).countP
        (fun l => pyStartsWith "--BEGIN-FILE: " l) = ws.length ∧
      (pySplitNl (build_code_context ws)).countP
        (fun l => l == "--END-FILE--") = ws.length := by
  refine ⟨blob_split ws hp, ?_, ?_⟩
  · rw [blob_split ws hp, blobLines, List.countP_cons, List.countP_cons,
      List.countP_append, countP_flat_begin ws hc]
    have e1 : pyStartsWith "--BEGIN-FILE: " "" = false := by decide
    have e2 : pyStartsWith "--BEGIN-FILE: " "The existing code files are below:" = false := by
      decide
    have e3 : ([""] : List String).countP (fun l => pyStartsWith "--BEGIN-FILE: " l) = 0 := by
      decide
    rw [e1, e2, e3]
    simp
  · rw [blob_split ws hp, blobLines, List.countP_cons, List.countP_cons,
      List.countP_append, countP_flat_end ws hc]
    have e1 : (("" : String) == "--END-FILE--") = false := by decide
    have e2 : (("The existing code files are below:" : String) == "--END-FILE--") = false := by
      decide
    have e3 : ([""] : List String).countP (fun l => l == "--END-FILE--") = 0 := by decide
    rw [e1, e2, e3]
    simp

/-- C8 counterexample: a content holding a vertical-tab line break is not
wrapped as-is with just a trailing newline added: splitlines converts the
break to a newline, so the blob holds the content nowhere. -/
theorem blob_wrap_counterexample :
    build_code_context [("a.txt", "x\x0By")] =
      "\nThe existing code files are below:\n--BEGIN-FILE: a.txt\nx\ny\n--END-FILE--\n\n" ∧
      pyContains "x\x0By" (build_code_context [("a.txt", "x\x0By")]) = false ∧
      build_code_context [("a.txt", "x\x0By")] ≠
        "\nThe existing code files are below:\n--BEGIN-FILE: a.txt\nx\x0By\n--END-FILE--\n\n" :=
  ⟨rfl, by decide, by decide⟩

/-- Witness for C8 amended: a two-file workspace yields exactly two
begin-marker lines and two end-marker lines. -/
theorem context_blob_marker_pairs_witness :
    ([(("a.txt" : String), ("hello" : String)), ("s/b.txt", "x\ny")].all
        (fun f => !pyContains "\n" f.1) = true) ∧
      ([(("a.txt" : String), ("hello" : String)), ("s/b.txt", "x\ny")].all
        (fun f => contentOk f.2) = true) ∧
      (pySplitNl (build_code_context [("a.txt", "hello"), ("s/b.txt", "x\ny")])).countP
        (fun l => pyStartsWith "--BEGIN-FILE: " l) = 2 ∧
      (pySplitNl (build_code_context [("a.txt", "hello"), ("s/b.txt", "x\ny")])).countP
        (fun l => l == "--END-FILE--") = 2 :=
  ⟨by decide, by decide,
    (context_blob_marker_pairs [("a.txt", "hello"), ("s/b.txt", "x\ny")]
      (by decide) (by decide)).2.1,
    (context_blob_marker_pairs [("a.txt", "hello"), ("s/b.txt", "x\ny")]
      (by decide) (by decide)).2.2⟩

/- ## History persistence -/

theorem talkToClaude_inert (service : CompletionRequest → String)
    (history prompt_wo_ctx : String) (workspace : List (String × String))
    (st : SessionState)
    (h : parserInert (service (completionRequestFor history prompt_wo_ctx workspace)) = true) :
    talkToClaude service history prompt_wo_ctx workspace st =
      .ok (⟨some (history ++ HUMAN_PROMPT ++ " " ++ prompt_wo_ctx ++ AI_PROMPT ++ "\n\n" ++
          service (completionRequestFor history prompt_wo_ctx workspace)), st.fs⟩,
        service (completionRequestFor history prompt_wo_ctx workspace)) := by
  rw [talkToClaude, write_inert _ _ h]

/-- C1 (amended): the history file is rewritten in overwrite mode on every
cycle, but the content written embeds the freshly loaded prior history, so
after two completion cycles in one session the file holds the first
exchange (splitlines-normalized) followed by the second prompt and second
completion: prior turns persist through the prompt chain instead of being
discarded. -/
theorem history_accumulates_across_cycles (p1 p2 c1 c2 : String)
    (ws : List (String × String)) (fs : FS)
    (h1 : parserInert c1 = true) (h2 : parserInert c2 = true) :
    (interactiveCycle (fun _ => c1) p1 ws ⟨none, fs⟩).bind
        (fun r => interactiveCycle (fun _ => c2) p2 ws r.1) =
      .ok (⟨some (savedTurn (loadHistory (some (savedTurn "" p1 c1))) p2 c2), fs⟩, c2) := by
  rw [interactiveCycle, talkToClaude_inert (fun _ => c1) _ _ ws ⟨none, fs⟩ h1]
  rw [Except.bind]
  rw [interactiveCycle, talkToClaude_inert (fun _ => c2) _ _ ws _ h2]
  rfl

set_option maxRecDepth 100000 in
/-- C1 counterexample: after two interactive cycles (inputs alpha then
gamma, completions beta then delta), the history file still holds both the
first prompt and the first completion, refuting single-turn retention. -/
theorem history_accumulates_counterexample :
    (interactiveCycle (fun _ => "beta") "alpha" [] ⟨none, ⟨[], []⟩⟩).bind
        (fun r => interactiveCycle (fun _ => "delta") "gamma" [] r.1) =
      .ok (⟨some (savedTurn (loadHistory (some (savedTurn "" "alpha" "beta"))) "gamma" "delta"),
        ⟨[], []⟩⟩, "delta") ∧
      pyContains "beta"
        (savedTurn (loadHistory (some (savedTurn "" "alpha" "beta"))) "gamma" "delta") = true ∧
      pyContains "alpha"
        (savedTurn (loadHistory (some (savedTurn "" "alpha" "beta"))) "gamma" "delta") = true :=
  ⟨rfl, by decide, by decide⟩

/-- Witness for C1 amended: the two-cycle run at concrete inputs. -/
theorem history_accumulates_witness :
    parserInert "beta" = true ∧ parserInert "delta" = true ∧
      (interactiveCycle (fun _ => "beta") "alpha" [] ⟨none, ⟨[], []⟩⟩).bind
          (fun r => interactiveCycle (fun _ => "delta") "gamma" [] r.1) =
        .ok (⟨some (savedTurn (loadHistory (some (savedTurn "" "alpha" "beta"))) "gamma" "delta"),
          ⟨[], []⟩⟩, "delta") :=
  ⟨by decide, by decide,
    history_accumulates_across_cycles "alpha" "gamma" "beta" "delta" [] ⟨[], []⟩
      (by decide) (by decide)⟩
